import Mathlib

/-!
Verification of the doc.js DOM helper library against its specification.

The library wraps host DOM calls: element selection, data/attribute reading,
visibility toggling, scrolling, a re-resolving element handle and a persistent
key-value store.  The host document is modelled as a query oracle mapping each
selector string to the (document-ordered) list of elements it resolves to;
every library function is translated directly from the source files, one Lean
definition per source variant where revisions differ.
-/

namespace DocJs

/-- An element of the host document tree: its attribute list (name, textual
value pairs, in attribute order) and its boolean hidden presentation flag. -/
structure Element where
  attributes : List (String × String)
  hidden : Bool
deriving DecidableEq, Repr

/-- A query target (the root document or an element subtree), modelled by the
querySelectorAll oracle of the host: each selector resolves to a finite list of
elements in document order. -/
structure DomTarget where
  queryAll : String → List Element

/-- querySelector returns the first match of querySelectorAll, or none. -/
def querySelector (t : DomTarget) (s : String) : Option Element :=
  (t.queryAll s).head?

/-- Error taxonomy of the library (spec section 7). -/
inductive DocError where
  | NotFound : String → DocError
  | NoParent : String → DocError
  | CorruptData : String → DocError
deriving DecidableEq, Repr

/-- Whether the name of an attribute begins with the data- prefix, as tested by
the source via name.startsWith("data-"); modelled as a character-list check so
that it evaluates by kernel reduction. -/
def isDataAttr (name : String) : Bool :=
  List.isPrefixOf "data-".data name.data

/-- The data-attribute key of an attribute name: the name with the 5-character
"data-" prefix removed (the camelCase conversion the host applies to hyphenated names is
elided; it is the identity on the hyphen-free names used throughout). -/
def dataKey (name : String) : String :=
  String.mk (name.data.drop 5)

/-- element.dataset: the data- attributes of the element, keyed by their
data-attribute key, in attribute order. -/
def dataset (e : Element) : List (String × String) :=
  e.attributes.filterMap
    (fun p => if isDataAttr p.1 then some (dataKey p.1, p.2) else none)

/-- JavaScript object assignment obj[k] = v: an existing key keeps its
position and is overwritten, a fresh key is appended. -/
def objSet {β : Type} : List (String × β) → String → β → List (String × β)
  | [], k, v => [(k, v)]
  | (k0, v0) :: rest, k, v =>
    if k0 = k then (k0, v) :: rest else (k0, v0) :: objSet rest k v

/-- select (src/src/doc.ts, second revision, lines 409-431): resolve the first
match of the selector under the target, throwing NotFound when none exists. -/
def select (selector : String) (target : DomTarget) : Except DocError Element :=
  match querySelector target selector with
  | none => Except.error (DocError.NotFound selector)
  | some e => Except.ok e

/-- selectAll (src/src/doc.ts, second revision, lines 438-460): resolve all
matches, throwing NotFound when the list is empty. -/
def selectAll (selector : String) (target : DomTarget) :
    Except DocError (List Element) :=
  let elements := target.queryAll selector
  if elements.isEmpty then Except.error (DocError.NotFound selector)
  else Except.ok elements

/-- existsEvery (src/unnamed/part_005 lines 20-27 and the second doc.ts
revision): selectors.every(s => target.querySelector(s) !== null).  The second
component records the selectors actually queried, in order: every stops at the
first selector whose query fails. -/
def existsEvery (t : DomTarget) (selectors : List String) : Bool × List String :=
  match selectors with
  | [] => (true, [])
  | s :: rest =>
    if (querySelector t s).isSome then
      let r := existsEvery t rest
      (r.1, s :: r.2)
    else
      (false, [s])

/-- existsForEach (src/unnamed/part_001 lines 60-76): starts with result true,
then forEach over all selectors clears the result on every failed query; every
selector is queried regardless of earlier failures.  The second component
records the queried selectors. -/
def existsForEach (t : DomTarget) (selectors : List String) : Bool × List String :=
  (selectors.foldl (fun acc s => acc && (querySelector t s).isSome) true,
   selectors)

/-- helpersExists (src/helpers.js lines 36-38): window.exists takes a single
selector and returns document.querySelector(selector) === null. -/
def helpersExists (t : DomTarget) (selector : String) : Bool :=
  (querySelector t selector).isNone

/-- Value returned by the single-name form of getData in doc.ts: either the
text of the attribute or the boolean sentinel for an empty value. -/
inductive DataValue where
  | text : String → DataValue
  | flag : Bool → DataValue
deriving DecidableEq, Repr

/-- getData with a name (src/src/doc.ts, second revision, lines 588-621):
dataset lookup; undefined throws NotFound; an empty-string value is converted
to boolean true, any other value is returned unchanged. -/
def getData (e : Element) (dataName : String) : Except DocError DataValue :=
  match (dataset e).lookup dataName with
  | none => Except.error (DocError.NotFound dataName)
  | some v =>
    if v.length = 0 then Except.ok (DataValue.flag true)
    else Except.ok (DataValue.text v)

/-- getData with a name (src/unnamed/part_000 lines 200-232): dataset lookup;
a falsy value - undefined or the empty string - throws NotFound, any other
value is returned unchanged (no boolean conversion). -/
def getDataMjs (e : Element) (dataName : String) : Except DocError String :=
  match (dataset e).lookup dataName with
  | none => Except.error (DocError.NotFound dataName)
  | some v =>
    if v.length = 0 then Except.error (DocError.NotFound dataName)
    else Except.ok v

/-- The test value.length === 0 applied by the aggregate form of getData. -/
def isEmptyVal (p : String × String) : Bool :=
  p.2.length == 0

/-- The complement of the data- prefix test: the attributes kept by
getAttibutes (the source skips the data- names with an early return and
assigns the rest, which is the same as assigning exactly the non-data names). -/
def notData (p : String × String) : Bool :=
  !(isDataAttr p.1)

/-- getData without a name (src/src/doc.ts, second revision, lines 588-621):
iterate Object.entries(element.dataset) and keep only the keys whose value has
length zero, each set to boolean true. -/
def getDataAll (e : Element) : List (String × Bool) :=
  (dataset e).foldl
    (fun acc p => if isEmptyVal p then objSet acc p.1 true else acc) []

/-- getData without a name (src/unnamed/part_001 lines 170-194): returns
element.dataset itself, every data attribute with its raw value. -/
def getDataAllV1 (e : Element) : List (String × String) :=
  dataset e

/-- getAttibutes (src/src/doc.ts, second revision, lines 627-638): reduce over
element.attributes skipping data- names, Object.assign-ing name to text; a
repeated name overwrites the earlier value. -/
def getAttibutes (e : Element) : List (String × String) :=
  e.attributes.foldl
    (fun acc p => if notData p then objSet acc p.1 p.2 else acc) []

/-- getAttibutes (src/unnamed/part_001 lines 200-217): pushes one
record per attribute - data- attributes included - into an array. -/
def getAttibutesV1 (e : Element) : List (String × String) :=
  e.attributes

/-- getAttibute (src/src/doc.ts first revision lines 244-274, and
src/unnamed/part_001 lines 223-243): looks up the attribute named
"data-" ++ attributeName; a missing attribute throws NotFound and so does a
present attribute whose textContent is falsy (empty). -/
def getAttibute (e : Element) (attributeName : String) : Except DocError String :=
  match e.attributes.lookup (String.append "data-" attributeName) with
  | none => Except.error (DocError.NotFound attributeName)
  | some t =>
    if t.length = 0 then Except.error (DocError.NotFound attributeName)
    else Except.ok t

/-- hide (src/src/doc.ts, second revision, lines 661-668): element.hidden = true. -/
def hide (e : Element) : Element :=
  Element.mk e.attributes true

/-- show (src/src/doc.ts, second revision, lines 674-681): element.hidden = false.
Named showElem because show is a Lean keyword. -/
def showElem (e : Element) : Element :=
  Element.mk e.attributes false

/-- Options object accepted by the scroll helpers; a None field was absent from
the object literal of the caller and keeps the Object.assign default. -/
structure ScrollOptions where
  smooth : Option Bool
  topOffset : Option Int
deriving DecidableEq, Repr

/-- One window.scroll request: its top coordinate and its behavior string. -/
structure ScrollRequest where
  top : Int
  behavior : String
deriving DecidableEq, Repr

/-- scrollToTop (src/src/doc.ts, second revision, lines 563-582): defaults
smooth true and topOffset 0 are overwritten by the provided options, a single
window.scroll request is issued with top = topOffset and behavior "smooth" or
"auto", and true is returned.  The result pairs the issued requests with the
return value. -/
def scrollToTop (options : ScrollOptions) : List ScrollRequest × Bool :=
  let smooth := options.smooth.getD true
  let topOffset := options.topOffset.getD 0
  ([ScrollRequest.mk topOffset (if smooth then "smooth" else "auto")], true)

/-- The class-based re-resolving handle (src/unnamed/part_003 lines 187-208):
it stores the selector (and the element resolved at construction). -/
structure ActiveElement where
  selector : String
  element : Element
deriving DecidableEq, Repr

/-- ActiveElement constructor: resolves the selector immediately and throws
NotFound when there is no match. -/
def ActiveElement.construct (selector : String) (t : DomTarget) :
    Except DocError ActiveElement :=
  match querySelector t selector with
  | none => Except.error (DocError.NotFound selector)
  | some e => Except.ok (ActiveElement.mk selector e)

/-- ActiveElement.get: re-runs the stored selector against the current
document state, throwing when the element no longer exists. -/
def ActiveElement.get (h : ActiveElement) (current : DomTarget) :
    Except DocError Element :=
  match querySelector current h.selector with
  | none => Except.error (DocError.NotFound h.selector)
  | some e => Except.ok e

/-- The closure-based handle produced by selectActive (src/unnamed/part_001
lines 45-54): it captures only the selector string. -/
structure ActiveClosure where
  selector : String
deriving DecidableEq, Repr

/-- selectActive: returns the closure unconditionally - the document is not
consulted at construction time, so construction never fails. -/
def selectActive (selector : String) : Except DocError ActiveClosure :=
  Except.ok (ActiveClosure.mk selector)

/-- Invoking the closure returned by selectActive: queries the current
document and throws NotFound when the selector has no match. -/
def ActiveClosure.call (h : ActiveClosure) (current : DomTarget) :
    Except DocError Element :=
  match querySelector current h.selector with
  | none => Except.error (DocError.NotFound h.selector)
  | some e => Except.ok e

/-- A document with no match for any selector. -/
def emptyTarget : DomTarget :=
  DomTarget.mk (fun _ => [])

/-- A document on which every selector matches one (attribute-less, shown)
element. -/
def oneTarget : DomTarget :=
  DomTarget.mk (fun _ => [Element.mk [] false])

/-- Concrete element carrying an empty-valued data-foo attribute. -/
def eDataFooEmpty : Element :=
  Element.mk [("data-foo", "")] false

/-- Concrete element carrying data-foo="bar". -/
def eDataFooBar : Element :=
  Element.mk [("data-foo", "bar")] false

/-- Concrete element mixing an empty-valued data attribute, a non-empty data
attribute and a plain attribute. -/
def eMix : Element :=
  Element.mk [("data-foo", ""), ("data-bar", "x"), ("id", "main")] false

/-- Modelled from the spec: the persistent key-value Store of spec section 4.6
is absent from the source tree (no src file defines it), so its record values
are modelled from the words of the spec as JSON-serializable scalars. -/
inductive JVal where
  | jnum : Int → JVal
  | jstr : String → JVal
  | jbool : Bool → JVal
deriving DecidableEq, Repr

/-- The in-memory record of a Store: a mapping from string key to value. -/
abbrev StoreRecord := List (String × JVal)

/-- Unary encoding of a natural number: n marks then a terminator. -/
def encodeNat : Nat → List Char
  | 0 => ['0']
  | n + 1 => '1' :: encodeNat n

/-- Decoder of the unary natural-number encoding; returns the remainder. -/
def decodeNat : List Char → Option (Nat × List Char)
  | [] => none
  | c :: rest =>
    if c = '0' then some (0, rest)
    else if c = '1' then
      match decodeNat rest with
      | none => none
      | some (n, r) => some (n + 1, r)
    else none

/-- Take exactly n characters, returning them and the remainder. -/
def takeN : Nat → List Char → Option (List Char × List Char)
  | 0, l => some ([], l)
  | _ + 1, [] => none
  | n + 1, c :: l =>
    match takeN n l with
    | none => none
    | some (a, b) => some (c :: a, b)

/-- Length-prefixed encoding of a string. -/
def encodeStr (s : String) : List Char :=
  encodeNat s.data.length ++ s.data

/-- Decoder of the length-prefixed string encoding. -/
def decodeStr (l : List Char) : Option (String × List Char) :=
  match decodeNat l with
  | none => none
  | some (n, r) =>
    match takeN n r with
    | none => none
    | some (a, b) => some (String.mk a, b)

/-- Sign-and-magnitude encoding of an integer. -/
def encodeInt (n : Int) : List Char :=
  if n < 0 then '-' :: encodeNat n.natAbs else '+' :: encodeNat n.natAbs

/-- Decoder of the integer encoding. -/
def decodeInt (l : List Char) : Option (Int × List Char) :=
  match l with
  | [] => none
  | c :: rest =>
    if c = '-' then
      match decodeNat rest with
      | none => none
      | some (n, r) => some (-(n : Int), r)
    else if c = '+' then
      match decodeNat rest with
      | none => none
      | some (n, r) => some ((n : Int), r)
    else none

/-- Tagged encoding of a single store value. -/
def encodeJVal : JVal → List Char
  | JVal.jnum n => 'n' :: encodeInt n
  | JVal.jstr s => 's' :: encodeStr s
  | JVal.jbool b => 'b' :: (if b then '1' else '0') :: []

/-- Decoder of a single store value. -/
def decodeJVal (l : List Char) : Option (JVal × List Char) :=
  match l with
  | [] => none
  | c :: rest =>
    if c = 'n' then
      match decodeInt rest with
      | none => none
      | some (n, r) => some (JVal.jnum n, r)
    else if c = 's' then
      match decodeStr rest with
      | none => none
      | some (s, r) => some (JVal.jstr s, r)
    else if c = 'b' then
      match rest with
      | [] => none
      | b :: r =>
        if b = '1' then some (JVal.jbool true, r)
        else if b = '0' then some (JVal.jbool false, r)
        else none
    else none

/-- Encoding of one record entry: key then value. -/
def encodeEntry (e : String × JVal) : List Char :=
  encodeStr e.1 ++ encodeJVal e.2

/-- Decoder of one record entry. -/
def decodeEntry (l : List Char) : Option ((String × JVal) × List Char) :=
  match decodeStr l with
  | none => none
  | some (k, r) =>
    match decodeJVal r with
    | none => none
    | some (v, r2) => some ((k, v), r2)

/-- Concatenated encoding of a list of record entries. -/
def encodeEntries : List (String × JVal) → List Char
  | [] => []
  | e :: rest => encodeEntry e ++ encodeEntries rest

/-- Decoder of exactly n record entries. -/
def decodeEntries : Nat → List Char → Option (List (String × JVal) × List Char)
  | 0, l => some ([], l)
  | n + 1, l =>
    match decodeEntry l with
    | none => none
    | some (e, r) =>
      match decodeEntries n r with
      | none => none
      | some (es, r2) => some (e :: es, r2)

/-- Modelled from the spec: serialization of the full record to the persistent
string store (the JSON encoding of the host abstracted as an entry-count-prefixed
character encoding with a verified decoder). -/
def encodeRecord (r : StoreRecord) : List Char :=
  encodeNat r.length ++ encodeEntries r

/-- Modelled from the spec: deserialization of a persisted string; any
non-conforming string fails to parse (the CorruptData case). -/
def decodeRecord (l : List Char) : Option StoreRecord :=
  match decodeNat l with
  | none => none
  | some (n, r) =>
    match decodeEntries n r with
    | none => none
    | some (es, rest) => if rest.isEmpty then some es else none

/-- The persistent string storage of the host: one optional string slot per name. -/
abbrev Storage := String → Option (List Char)

/-- The two backing store kinds named by the configuration in the spec. -/
inductive StoreType where
  | cookie
  | persistentString
deriving DecidableEq, Repr

/-- Store configuration: adopt flag and backing store kind. -/
structure StoreConfig where
  adopt : Bool
  storeType : StoreType
deriving DecidableEq, Repr

/-- Modelled from the spec: a named Store instance and its in-memory record. -/
structure Store where
  name : String
  record : StoreRecord
deriving DecidableEq, Repr

/-- Modelled from the spec: Store construction.  With adopt, the in-memory
record deserializes whatever is persisted under the name (CorruptData when the
parse fails, an empty record when nothing is persisted) and no flush occurs;
without adopt, any prior persisted record under the name is flushed and the
record starts empty. -/
def Store.make (name : String) (cfg : StoreConfig) (σ : Storage) :
    Except DocError (Store × Storage) :=
  if cfg.adopt then
    match σ name with
    | none => Except.ok (Store.mk name [], σ)
    | some persisted =>
      match decodeRecord persisted with
      | none => Except.error (DocError.CorruptData name)
      | some r => Except.ok (Store.mk name r, σ)
  else
    Except.ok (Store.mk name [], fun k => if k = name then none else σ k)

/-- Modelled from the spec: Store.store merges the partial mapping into the
in-memory record (shallow overwrite per key) and immediately re-serializes and
persists the full record under the name of the store. -/
def Store.store (st : Store) (part : StoreRecord) (σ : Storage) :
    Store × Storage :=
  let newRecord := part.foldl (fun acc p => objSet acc p.1 p.2) st.record
  (Store.mk st.name newRecord,
   fun k => if k = st.name then some (encodeRecord newRecord) else σ k)

end DocJs

namespace DocJs

theorem lookup_objSet {β : Type} (acc : List (String × β)) (k : String) (v : β)
    (k2 : String) :
    (objSet acc k v).lookup k2 = if k2 = k then some v else acc.lookup k2 := by
  induction acc with
  | nil =>
    by_cases h : k2 = k
    · simp [objSet, List.lookup, h]
    · simp [objSet, List.lookup, h, beq_false_of_ne h]
  | cons p rest ih =>
    obtain ⟨k0, v0⟩ := p
    by_cases h0 : k0 = k
    · subst h0
      by_cases h2 : k2 = k0
      · simp [objSet, List.lookup, h2]
      · simp [objSet, List.lookup, h2, beq_false_of_ne h2]
    · by_cases h2 : k2 = k0
      · subst h2
        simp [objSet, h0, List.lookup]
      · simp [objSet, h0, List.lookup, beq_false_of_ne h2, ih]

theorem mem_objSet {β : Type} (acc : List (String × β)) (k : String) (v : β)
    (p : String × β) (hp : p ∈ objSet acc k v) : p ∈ acc ∨ p = (k, v) := by
  induction acc with
  | nil => simp [objSet] at hp; simp [hp]
  | cons q rest ih =>
    obtain ⟨k0, v0⟩ := q
    by_cases h0 : k0 = k
    · subst h0
      simp [objSet] at hp
      rcases hp with h | h
      · right; simp [h]
      · left; simp [h]
    · simp [objSet, h0] at hp
      rcases hp with h | h
      · left; simp [h]
      · rcases ih h with h2 | h2
        · left; simp [h2]
        · right; exact h2

theorem lookup_append {β : Type} (l1 l2 : List (String × β)) (k : String) :
    (l1 ++ l2).lookup k = Option.or (l1.lookup k) (l2.lookup k) := by
  induction l1 with
  | nil => simp [Option.or]
  | cons p rest ih =>
    obtain ⟨k0, v0⟩ := p
    by_cases h : k = k0
    · simp [List.lookup, h, Option.or]
    · simp [List.lookup, beq_false_of_ne h, ih]

theorem lookup_eq_some_of_nodup_mem {β : Type} (l : List (String × β))
    (k : String) (v : β) (hn : (l.map Prod.fst).Nodup) (hm : (k, v) ∈ l) :
    l.lookup k = some v := by
  induction l with
  | nil => cases hm
  | cons p rest ih =>
    obtain ⟨k0, v0⟩ := p
    simp [List.nodup_cons] at hn
    rcases List.mem_cons.mp hm with h | h
    · obtain ⟨hk, hv⟩ := Prod.mk.injEq .. ▸ h
      subst hk; subst hv
      simp [List.lookup]
    · have hne : k ≠ k0 := by
        intro he
        subst he
        exact hn.1 v (by simpa using h)
      simp [List.lookup, beq_false_of_ne hne, ih hn.2 h]

theorem mem_of_lookup_eq_some {β : Type} (l : List (String × β)) (k : String)
    (v : β) (h : l.lookup k = some v) : (k, v) ∈ l := by
  induction l with
  | nil => simp [List.lookup] at h
  | cons p rest ih =>
    obtain ⟨k0, v0⟩ := p
    by_cases he : k = k0
    · subst he
      simp [List.lookup] at h
      simp [h]
    · simp [List.lookup, beq_false_of_ne he] at h
      exact List.mem_cons_of_mem _ (ih h)

theorem optOr_assoc {β : Type} (a b c : Option β) :
    Option.or (Option.or a b) c = Option.or a (Option.or b c) := by
  cases a <;> rfl

theorem optOr_none {β : Type} (a : Option β) : Option.or a none = a := by
  cases a <;> rfl

theorem lookup_foldl_objSet {β : Type} (cond : String × String → Bool)
    (val : String × String → β) (l : List (String × String))
    (acc : List (String × β)) (k : String) :
    ((l.foldl (fun a p => if cond p then objSet a p.1 (val p) else a)
        acc).lookup k)
      = Option.or
          ((((l.filter cond).map (fun p => (p.1, val p))).reverse).lookup k)
          (acc.lookup k) := by
  induction l generalizing acc with
  | nil => simp [Option.or]
  | cons p rest ih =>
    by_cases hc : cond p
    · simp only [List.foldl_cons, hc, if_pos, List.filter_cons, List.map_cons,
        List.reverse_cons]
      rw [ih, lookup_objSet, lookup_append, optOr_assoc]
      congr 1
      by_cases hk : k = p.1
      · simp [List.lookup, hk, Option.or]
      · simp [List.lookup, beq_false_of_ne hk, hk, Option.or]
    · have hf : cond p = false := by simpa using hc
      simp only [List.foldl_cons, List.filter_cons, hf, Bool.false_eq_true,
        if_false]
      exact ih acc

theorem mem_foldl_objSet {β : Type} (cond : String × String → Bool)
    (val : String × String → β) (l : List (String × String))
    (acc : List (String × β)) (p : String × β)
    (hp : p ∈ l.foldl (fun a q => if cond q then objSet a q.1 (val q) else a) acc) :
    p ∈ acc ∨ ∃ q, q ∈ l ∧ cond q = true ∧ p = (q.1, val q) := by
  induction l generalizing acc with
  | nil => exact Or.inl hp
  | cons q rest ih =>
    by_cases hc : cond q
    · simp only [List.foldl_cons, hc, if_pos] at hp
      rcases ih (objSet acc q.1 (val q)) hp with h | h
      · rcases mem_objSet acc q.1 (val q) p h with h2 | h2
        · exact Or.inl h2
        · exact Or.inr ⟨q, List.mem_cons_self .., hc, h2⟩
      · obtain ⟨r, hr, hcr, hpr⟩ := h
        exact Or.inr ⟨r, List.mem_cons_of_mem _ hr, hcr, hpr⟩
    · simp only [List.foldl_cons, hc, Bool.false_eq_true, if_neg,
        not_false_iff] at hp
      rcases ih acc hp with h | h
      · exact Or.inl h
      · obtain ⟨r, hr, hcr, hpr⟩ := h
        exact Or.inr ⟨r, List.mem_cons_of_mem _ hr, hcr, hpr⟩

theorem foldl_and_eq_all {α : Type} (l : List α) (f : α → Bool) (b : Bool) :
    l.foldl (fun acc s => acc && f s) b = (b && l.all f) := by
  induction l generalizing b with
  | nil => simp
  | cons x rest ih =>
    simp [List.all_cons, ih, Bool.and_assoc]

theorem existsEvery_fst (t : DomTarget) (sels : List String) :
    (existsEvery t sels).1 = sels.all (fun s => (querySelector t s).isSome) := by
  induction sels with
  | nil => rfl
  | cons s rest ih =>
    by_cases h : (querySelector t s).isSome
    · simp [existsEvery, h, List.all_cons, ih]
    · simp [existsEvery, h, List.all_cons]

theorem existsEvery_trace_of_true (t : DomTarget) (sels : List String)
    (h : (existsEvery t sels).1 = true) : (existsEvery t sels).2 = sels := by
  induction sels with
  | nil => rfl
  | cons s rest ih =>
    by_cases hq : (querySelector t s).isSome
    · simp [existsEvery, hq] at h ⊢
      exact ih h
    · simp [existsEvery, hq] at h

theorem existsEvery_trace_of_false (t : DomTarget) (sels : List String)
    (h : (existsEvery t sels).1 = false) :
    ∃ pre failSel post, sels = pre ++ failSel :: post ∧
      (∀ x ∈ pre, (querySelector t x).isSome = true) ∧
      (querySelector t failSel).isSome = false ∧
      (existsEvery t sels).2 = pre ++ [failSel] := by
  induction sels with
  | nil => simp [existsEvery] at h
  | cons s rest ih =>
    by_cases hq : (querySelector t s).isSome
    · simp only [existsEvery, hq, if_pos] at h ⊢
      obtain ⟨pre, failSel, post, hspl, hpre, hfail, htr⟩ := ih h
      refine ⟨s :: pre, failSel, post, by simp [hspl], ?_, hfail, by simp [htr]⟩
      intro x hx
      rcases List.mem_cons.mp hx with hx | hx
      · subst hx; exact hq
      · exact hpre x hx
    · have hq2 : (querySelector t s).isSome = false := by simpa using hq
      exact ⟨[], s, rest, rfl, by simp, hq2, by simp [existsEvery, hq2]⟩

theorem decodeNat_encodeNat (n : Nat) (rest : List Char) :
    decodeNat (encodeNat n ++ rest) = some (n, rest) := by
  induction n with
  | zero => simp [encodeNat, decodeNat]
  | succ m ih => simp [encodeNat, decodeNat, ih]

theorem takeN_length_append (l rest : List Char) :
    takeN l.length (l ++ rest) = some (l, rest) := by
  induction l with
  | nil => rfl
  | cons c cs ih => simp [takeN, ih]

theorem decodeStr_encodeStr (s : String) (rest : List Char) :
    decodeStr (encodeStr s ++ rest) = some (s, rest) := by
  obtain ⟨d⟩ := s
  simp [encodeStr, decodeStr, List.append_assoc, decodeNat_encodeNat,
    takeN_length_append]

theorem decodeInt_encodeInt (n : Int) (rest : List Char) :
    decodeInt (encodeInt n ++ rest) = some (n, rest) := by
  by_cases h : n < 0
  · have habs : ((n.natAbs : Int)) = -n := by omega
    simp [encodeInt, h, decodeInt, decodeNat_encodeNat, habs]
  · have habs : ((n.natAbs : Int)) = n := by omega
    simp [encodeInt, h, decodeInt, decodeNat_encodeNat, habs]

theorem decodeJVal_encodeJVal (v : JVal) (rest : List Char) :
    decodeJVal (encodeJVal v ++ rest) = some (v, rest) := by
  cases v with
  | jnum n => simp [encodeJVal, decodeJVal, decodeInt_encodeInt]
  | jstr s => simp [encodeJVal, decodeJVal, decodeStr_encodeStr]
  | jbool b => cases b <;> simp [encodeJVal, decodeJVal]

theorem decodeEntry_encodeEntry (e : String × JVal) (rest : List Char) :
    decodeEntry (encodeEntry e ++ rest) = some (e, rest) := by
  obtain ⟨k, v⟩ := e
  simp [encodeEntry, decodeEntry, List.append_assoc, decodeStr_encodeStr,
    decodeJVal_encodeJVal]

theorem decodeEntries_encodeEntries (r : List (String × JVal))
    (rest : List Char) :
    decodeEntries r.length (encodeEntries r ++ rest) = some (r, rest) := by
  induction r generalizing rest with
  | nil => rfl
  | cons e es ih =>
    simp [encodeEntries, decodeEntries, List.append_assoc,
      decodeEntry_encodeEntry, ih]

theorem decodeRecord_encodeRecord (r : StoreRecord) :
    decodeRecord (encodeRecord r) = some r := by
  have h : decodeEntries r.length (encodeEntries r ++ []) = some (r, []) :=
    decodeEntries_encodeEntries r []
  rw [List.append_nil] at h
  simp [encodeRecord, decodeRecord, decodeNat_encodeNat, h]

theorem string_eq_empty_of_length (s : String) (h : s.length = 0) : s = "" := by
  cases s with
  | mk d =>
    cases d with
    | nil => rfl
    | cons c cs => simp [String.length] at h

/-- Claim C1: for every selector string with zero matches under the target,
select fails with NotFound and selectAll fails with NotFound; moreover select
only ever returns the first current match and selectAll only ever returns the
full, non-empty match list - neither returns an absent element or an empty
sequence silently. -/
theorem select_selectAll_spec : ∀ (t : DomTarget) (s : String),
    (t.queryAll s = [] →
      select s t = Except.error (DocError.NotFound s) ∧
      selectAll s t = Except.error (DocError.NotFound s)) ∧
    (∀ e, select s t = Except.ok e → querySelector t s = some e) ∧
    (∀ l, selectAll s t = Except.ok l → l = t.queryAll s ∧ l ≠ []) := by
  intro t s
  refine ⟨?_, ?_, ?_⟩
  · intro h
    constructor
    · simp [select, querySelector, h]
    · simp [selectAll, h]
  · intro e he
    unfold select at he
    cases hq : querySelector t s with
    | none => rw [hq] at he; cases he
    | some x => rw [hq] at he; cases he; rfl
  · intro l hl
    unfold selectAll at hl
    by_cases h : (t.queryAll s).isEmpty
    · simp [h] at hl
    · simp [h] at hl
      subst hl
      exact ⟨rfl, by simpa [List.isEmpty_iff] using h⟩

/-- Witness for claim C1 at a concrete empty document. -/
theorem select_selectAll_spec_w :
    select "#x" emptyTarget = Except.error (DocError.NotFound "#x") ∧
    selectAll "#x" emptyTarget = Except.error (DocError.NotFound "#x") :=
  (select_selectAll_spec emptyTarget "#x").1 rfl

/-- Claim C3 (amended): the every-based exists of part_005 and the second
doc.ts revision returns true iff every selector has a match, querying exactly
the prefix of the selector list up to and including the first failure (the
whole list when all match) and never throwing; the forEach-based exists of
part_001 returns the same boolean but queries every selector with no
short-circuit; the single-selector window.exists of helpers.js returns the
inverted result, true exactly when the selector has no match. -/
theorem exists_spec : ∀ (t : DomTarget) (sels : List String) (s : String),
    ((existsEvery t sels).1 = sels.all (fun x => (querySelector t x).isSome)) ∧
    ((existsEvery t sels).1 = true → (existsEvery t sels).2 = sels) ∧
    ((existsEvery t sels).1 = false →
      ∃ pre failSel post, sels = pre ++ failSel :: post ∧
        (∀ x ∈ pre, (querySelector t x).isSome = true) ∧
        (querySelector t failSel).isSome = false ∧
        (existsEvery t sels).2 = pre ++ [failSel]) ∧
    (existsForEach t sels
      = (sels.all (fun x => (querySelector t x).isSome), sels)) ∧
    (helpersExists t s = !((querySelector t s).isSome)) := by
  intro t sels s
  refine ⟨existsEvery_fst t sels, existsEvery_trace_of_true t sels,
    existsEvery_trace_of_false t sels, ?_, ?_⟩
  · unfold existsForEach
    rw [foldl_and_eq_all]
    simp
  · unfold helpersExists
    cases querySelector t s <;> rfl

/-- Witness for claim C3: on a document where every selector matches, the
every-based variant queries the whole list. -/
theorem exists_spec_w : (existsEvery oneTarget ["a"]).2 = ["a"] :=
  (exists_spec oneTarget ["a"] "b").2.1 (by decide)

/-- Counterexample for claim C3 as stated: with the first of two selectors
unmatched, the forEach-based variant still queries both selectors (while the
short-circuiting variant stops after the first), and window.exists of
helpers.js returns false on a selector that does match. -/
theorem exists_cex :
    querySelector emptyTarget "a" = none ∧
    (existsForEach emptyTarget ["a", "b"]).2 = ["a", "b"] ∧
    (existsEvery emptyTarget ["a", "b"]).2 = ["a"] ∧
    (querySelector oneTarget "a").isSome = true ∧
    helpersExists oneTarget "a" = false :=
  ⟨rfl, rfl, rfl, rfl, rfl⟩

/-- Claim C4 (amended): the class-based handle resolves its selector at
construction time, failing with NotFound when there is no current match, and
each get re-runs the stored selector against the current document exactly like
a fresh select; the closure-based selectActive of part_001 never consults the
document at construction - it always succeeds, and resolution with its
NotFound failure happens on each invocation of the returned closure. -/
theorem active_handle_spec : ∀ (s : String) (t : DomTarget),
    (t.queryAll s = [] →
      ActiveElement.construct s t = Except.error (DocError.NotFound s)) ∧
    (∀ h : ActiveElement, ActiveElement.construct s t = Except.ok h →
      h.selector = s ∧ querySelector t s = some h.element) ∧
    (∀ (h : ActiveElement) (current : DomTarget),
      ActiveElement.get h current = select h.selector current) ∧
    (selectActive s = Except.ok (ActiveClosure.mk s)) ∧
    (∀ current : DomTarget,
      ActiveClosure.call (ActiveClosure.mk s) current = select s current) := by
  intro s t
  refine ⟨?_, ?_, ?_, rfl, ?_⟩
  · intro h
    simp [ActiveElement.construct, querySelector, h]
  · intro h hc
    unfold ActiveElement.construct at hc
    cases hq : querySelector t s with
    | none => rw [hq] at hc; cases hc
    | some x => rw [hq] at hc; cases hc; exact ⟨rfl, hq ▸ rfl⟩
  · intro h current
    rfl
  · intro current
    rfl

/-- Witness for claim C4: constructing the class-based handle on an unmatched
selector fails with NotFound. -/
theorem active_handle_spec_w :
    ActiveElement.construct "#missing" emptyTarget
      = Except.error (DocError.NotFound "#missing") :=
  (active_handle_spec "#missing" emptyTarget).1 rfl

/-- Counterexample for claim C4 as stated: on a document with no match,
constructing the selectActive closure handle succeeds - the NotFound failure
is deferred to the first invocation. -/
theorem active_handle_cex :
    emptyTarget.queryAll "#missing" = [] ∧
    selectActive "#missing" = Except.ok (ActiveClosure.mk "#missing") ∧
    ActiveClosure.call (ActiveClosure.mk "#missing") emptyTarget
      = Except.error (DocError.NotFound "#missing") :=
  ⟨rfl, rfl, rfl⟩

/-- Claim C2 (amended): for the doc.ts getData, an empty-string data attribute
yields boolean true, a non-empty value is returned unchanged and an absent
attribute fails with NotFound; for the part_000 getData, the non-empty and
absent cases behave the same, but an empty-string value also fails with
NotFound instead of yielding true. -/
theorem getData_single_spec : ∀ (e : Element) (n : String),
    ((dataset e).lookup n = none →
      getData e n = Except.error (DocError.NotFound n) ∧
      getDataMjs e n = Except.error (DocError.NotFound n)) ∧
    ((dataset e).lookup n = some "" →
      getData e n = Except.ok (DataValue.flag true) ∧
      getDataMjs e n = Except.error (DocError.NotFound n)) ∧
    (∀ v, (dataset e).lookup n = some v → v ≠ "" →
      getData e n = Except.ok (DataValue.text v) ∧
      getDataMjs e n = Except.ok v) := by
  intro e n
  refine ⟨?_, ?_, ?_⟩
  · intro h
    exact ⟨by simp [getData, h], by simp [getDataMjs, h]⟩
  · intro h
    exact ⟨by simp [getData, h], by simp [getDataMjs, h]⟩
  · intro v h hv
    have hl : ¬ v.length = 0 := fun hz => hv (string_eq_empty_of_length v hz)
    exact ⟨by simp [getData, h, hl], by simp [getDataMjs, h, hl]⟩

/-- Witness for claim C2 at a concrete element with data-foo="". -/
theorem getData_single_spec_w :
    getData eDataFooEmpty "foo" = Except.ok (DataValue.flag true) ∧
    getDataMjs eDataFooEmpty "foo" = Except.error (DocError.NotFound "foo") :=
  (getData_single_spec eDataFooEmpty "foo").2.1 (by decide)

/-- Counterexample for claim C2 as stated: on an element with data-foo="",
the part_000 getData fails with NotFound instead of returning true. -/
theorem getData_single_cex :
    getDataMjs eDataFooEmpty "foo" = Except.error (DocError.NotFound "foo") :=
  rfl

/-- Claim C10: getAttibute looks up the attribute named "data-" ++ n - never
the attribute named n itself - failing with NotFound both when that prefixed
attribute is absent and when it is present with empty text; any string it
returns is the text of that attribute and is non-empty. -/
theorem getAttibute_spec : ∀ (e : Element) (n : String),
    (e.attributes.lookup (String.append "data-" n) = none →
      getAttibute e n = Except.error (DocError.NotFound n)) ∧
    (e.attributes.lookup (String.append "data-" n) = some "" →
      getAttibute e n = Except.error (DocError.NotFound n)) ∧
    (∀ s, getAttibute e n = Except.ok s →
      e.attributes.lookup (String.append "data-" n) = some s ∧ s ≠ "") := by
  intro e n
  refine ⟨?_, ?_, ?_⟩
  · intro h
    simp [getAttibute, h]
  · intro h
    simp [getAttibute, h]
  · intro s hs
    unfold getAttibute at hs
    cases hq : e.attributes.lookup (String.append "data-" n) with
    | none => rw [hq] at hs; cases hs
    | some t =>
      rw [hq] at hs
      by_cases hz : t.length = 0
      · simp [hz] at hs
      · simp [hz] at hs
        subst hs
        exact ⟨rfl, fun he => hz (by rw [he]; rfl)⟩

/-- Witness for claim C10: an element carrying a plain attribute named bar but
no data-bar attribute makes getAttibute fail with NotFound. -/
theorem getAttibute_spec_w :
    getAttibute (Element.mk [("data-foo", "x"), ("bar", "")] false) "bar"
      = Except.error (DocError.NotFound "bar") :=
  (getAttibute_spec (Element.mk [("data-foo", "x"), ("bar", "")] false)
    "bar").1 (by decide)

/-- Claim C7 (amended): show after hide always clears the hidden flag, which
equals the pre-hide state exactly when the element was not hidden before; hide
is idempotent. -/
theorem hide_show_spec : ∀ (e : Element),
    ((showElem (hide e)).hidden = false) ∧
    (e.hidden = false → showElem (hide e) = e) ∧
    (hide (hide e) = hide e) := by
  intro e
  refine ⟨rfl, ?_, rfl⟩
  intro h
  obtain ⟨attrs, hid⟩ := e
  simp only at h
  subst h
  rfl

/-- Witness for claim C7 at a concrete visible element. -/
theorem hide_show_spec_w :
    showElem (hide (Element.mk [] false)) = Element.mk [] false :=
  (hide_show_spec (Element.mk [] false)).2.1 rfl

/-- Counterexample for claim C7 as stated: an element whose hidden flag is
already set is not restored to its pre-hide state by hide followed by show. -/
theorem hide_show_cex :
    showElem (hide (Element.mk [] true)) ≠ Element.mk [] true := by
  decide

/-- Claim C9: scrollToTop issues exactly one scroll request, targeting
vertical offset options.topOffset (default 0) with animated behavior when
options.smooth is true or absent and immediate behavior when it is false, and
always returns true; in particular topOffset 100 with smooth false issues one
immediate request at offset 100. -/
theorem scrollToTop_spec : ∀ (options : ScrollOptions),
    ((scrollToTop options).1.length = 1) ∧
    (∀ r ∈ (scrollToTop options).1,
      r.top = options.topOffset.getD 0 ∧
      r.behavior = (if options.smooth.getD true then "smooth" else "auto")) ∧
    ((scrollToTop options).2 = true) ∧
    (scrollToTop (ScrollOptions.mk (some false) (some 100))
      = ([ScrollRequest.mk 100 "auto"], true)) := by
  intro options
  refine ⟨rfl, ?_, rfl, rfl⟩
  intro r hr
  simp [scrollToTop] at hr
  subst hr
  exact ⟨rfl, rfl⟩

/-- Witness for claim C9 at the concrete options of the example in the spec. -/
theorem scrollToTop_spec_w :
    (ScrollRequest.mk 100 "auto").top
        = ((ScrollOptions.mk (some false) (some 100)).topOffset.getD 0) ∧
    (ScrollRequest.mk 100 "auto").behavior
        = (if (ScrollOptions.mk (some false) (some 100)).smooth.getD true
           then "smooth" else "auto") :=
  (scrollToTop_spec (ScrollOptions.mk (some false) (some 100))).2.1
    (ScrollRequest.mk 100 "auto") (by decide)

/-- Claim C5 (amended): for the doc.ts aggregate getData, the result maps
exactly the data-attribute keys whose value is the empty string to boolean
true, with every value in the result the boolean true (stated for elements
whose data-attribute keys are distinct, as attribute names are in a host
document); the part_001 aggregate getData instead returns element.dataset
itself, every data attribute with its raw value. -/
theorem getDataAll_spec : ∀ (e : Element),
    (((dataset e).map Prod.fst).Nodup →
      ∀ k, ((getDataAll e).lookup k = some true
              ↔ (dataset e).lookup k = some "")) ∧
    (∀ k b, (k, b) ∈ getDataAll e → b = true) ∧
    (getDataAllV1 e = dataset e) := by
  intro e
  refine ⟨?_, ?_, rfl⟩
  · intro hn k
    constructor
    · intro h
      have hm := mem_of_lookup_eq_some _ k true h
      rcases mem_foldl_objSet isEmptyVal (fun _ => true) (dataset e) []
          (k, true) hm with hc | hc
      · cases hc
      · obtain ⟨q, hq, hcq, hpq⟩ := hc
        obtain ⟨qk, qv⟩ := q
        have hk : k = qk := congrArg Prod.fst hpq
        subst hk
        have hv : qv = "" := by
          unfold isEmptyVal at hcq
          simp at hcq
          exact string_eq_empty_of_length qv hcq
        subst hv
        exact lookup_eq_some_of_nodup_mem (dataset e) k "" hn hq
    · intro h
      have hm := mem_of_lookup_eq_some _ k "" h
      have hmem : (k, true) ∈ (((dataset e).filter isEmptyVal).map
          (fun p => (p.1, true))).reverse := by
        rw [List.mem_reverse]
        exact List.mem_map_of_mem _ (List.mem_filter.mpr ⟨hm, rfl⟩)
      have hnodup : (((((dataset e).filter isEmptyVal).map
          (fun p => (p.1, true))).reverse).map Prod.fst).Nodup := by
        rw [List.map_reverse, List.nodup_reverse, List.map_map]
        exact ((List.filter_sublist (dataset e)).map Prod.fst).nodup hn
      have hlk := lookup_eq_some_of_nodup_mem _ k true hnodup hmem
      have hf := lookup_foldl_objSet isEmptyVal (fun _ => true) (dataset e) [] k
      rw [hlk] at hf
      simpa [Option.or] using hf
  · intro k b hm
    rcases mem_foldl_objSet isEmptyVal (fun _ => true) (dataset e) []
        (k, b) hm with h | h
    · cases h
    · obtain ⟨q, hq, hcq, hpq⟩ := h
      exact congrArg Prod.snd hpq

/-- Witness for claim C5 at a concrete element with mixed attributes. -/
theorem getDataAll_spec_w :
    ((getDataAll eMix).lookup "foo" = some true
      ↔ (dataset eMix).lookup "foo" = some "") :=
  (getDataAll_spec eMix).1 (by decide) "foo"

/-- Counterexample for claim C5 as stated: on an element with data-foo="bar",
the part_001 aggregate getData exposes the non-empty-valued key foo (which the
claim says must not appear at all), while the doc.ts aggregate is empty. -/
theorem getDataAll_cex :
    ("foo", "bar") ∈ getDataAllV1 eDataFooBar ∧ getDataAll eDataFooBar = [] :=
  ⟨by decide, rfl⟩

/-- Claim C6 (amended): the doc.ts getAttibutes returns a flat mapping whose
keys never begin with the data- prefix and in which a later occurrence of a
name overwrites an earlier one (its lookup agrees with the last non-data
occurrence in the attribute list); the part_001 getAttibutes instead returns
every attribute - data- attributes included - as a sequence of name-value
pairs without merging. -/
theorem getAttibutes_spec : ∀ (e : Element),
    (∀ k v, (k, v) ∈ getAttibutes e → isDataAttr k = false) ∧
    (∀ k, (getAttibutes e).lookup k
        = ((e.attributes.filter notData).reverse).lookup k) ∧
    (getAttibutesV1 e = e.attributes) := by
  intro e
  refine ⟨?_, ?_, rfl⟩
  · intro k v hm
    rcases mem_foldl_objSet notData (fun p => p.2) e.attributes []
        (k, v) hm with h | h
    · cases h
    · obtain ⟨q, hq, hcq, hpq⟩ := h
      have hk : k = q.1 := congrArg Prod.fst hpq
      subst hk
      unfold notData at hcq
      simpa using hcq
  · intro k
    have hf := lookup_foldl_objSet notData (fun p => p.2) e.attributes [] k
    rw [show (List.lookup k ([] : List (String × String))) = none from rfl,
      optOr_none] at hf
    simpa using hf

/-- Witness for claim C6: the plain id attribute survives into the flat
mapping and its name does not begin with the data- prefix. -/
theorem getAttibutes_spec_w : isDataAttr "id" = false :=
  (getAttibutes_spec eMix).1 "id" "main" (by decide)

/-- Counterexample for claim C6 as stated: the part_001 getAttibutes on an
element with a data-x attribute returns a pair whose key begins with the
data- prefix. -/
theorem getAttibutes_cex :
    getAttibutesV1 (Element.mk [("data-x", "1")] false) = [("data-x", "1")] ∧
    isDataAttr "data-x" = true :=
  ⟨rfl, by decide⟩

/-- Claim C8: writing the single-key record a to 1 through Store.store and
then constructing a new Store with adopt over the same name round-trips
through the persistent string storage - the adopted in-memory record contains
a mapped to 1.  (Spec-modelled: the Store component is absent from the source
tree.) -/
theorem store_adopt_roundTrip : ∀ (st : Store) (σ : Storage) (ty : StoreType),
    match Store.make st.name (StoreConfig.mk true ty)
        (Store.store st [("a", JVal.jnum 1)] σ).2 with
    | Except.ok p => p.1.record.lookup "a" = some (JVal.jnum 1)
    | Except.error _ => False := by
  intro st σ ty
  have hnew : (Store.store st [("a", JVal.jnum 1)] σ).2 st.name
      = some (encodeRecord (objSet st.record "a" (JVal.jnum 1))) := by
    simp [Store.store]
  simp [Store.make, hnew, decodeRecord_encodeRecord]
  rw [lookup_objSet]
  simp

end DocJs
